import Mathlib

/-!
Verification model of the Swift Clang importer implementation surface
(`lib/ClangImporter/ImporterImpl.h`, class `ClangImporter::Implementation`).

Pointer-valued AST nodes are modelled by numeric identities: `HostDecl`
carries a `Nat` identity standing for the address of a produced Swift
declaration, so value equality of `HostDecl` is object identity.  LLVM
`DenseMap` fields are modelled as association lists with unique keys
(every insertion first erases the key).  The `unsigned` counters
(`Generation`, `NextDelayedConformanceID`) are 32-bit C++ unsigned
integers: every increment is taken modulo `2 ^ 32`, so after `2 ^ 32 - 1`
bumps the generation counter wraps to 0 and after `2 ^ 32` allocations
the ticket counter repeats ids.
-/

/-- Association-list lookup, modelling `DenseMap::find`. -/
def findEntry {α β : Type} [DecidableEq α] : List (α × β) → α → Option β
  | [], _ => none
  | e :: rest, a => if e.1 = a then some e.2 else findEntry rest a

/-- Association-list erasure of every binding of a key, modelling
`DenseMap::erase`. -/
def eraseEntry {α β : Type} [DecidableEq α] : List (α × β) → α → List (α × β)
  | [], _ => []
  | e :: rest, a => if e.1 = a then eraseEntry rest a else e :: eraseEntry rest a

/-- Association-list insert-or-overwrite, modelling `DenseMap::operator[]`
followed by assignment. -/
def insertEntry {α β : Type} [DecidableEq α] (l : List (α × β)) (a : α) (b : β) :
    List (α × β) :=
  (a, b) :: eraseEntry l a

/-! ## Core AST identities -/

/-- Identity of a Swift declaration produced by the importer (`swift::Decl *`).
Value equality is object identity. -/
structure HostDecl where
  id : Nat
deriving DecidableEq

/-- A Clang declaration handle (`const clang::NamedDecl *`), as far as the
import-cache logic observes it: either a base declaration (with its identity
and whether it is representable in Swift at all), or a typedef of another
declaration, possibly superfluous (`SuperfluousTypedefs`,
ImporterImpl.h:390-396). -/
inductive ForeignDecl
  | base (id : Nat) (representable : Bool)
  | typedefOf (superfluous : Bool) (target : ForeignDecl)
deriving DecidableEq

/-- State of the visible-declaration enumeration cache
(ImporterImpl.h:417-421, `enum class CacheState`). -/
inductive CacheState
  | Invalid
  | InProgress
  | Valid
deriving DecidableEq

/-- A cached set of extensions for an Objective-C class
(ImporterImpl.h:458-488, `struct CachedExtensions`).  The owned pointer
`SmallVector<ExtensionDecl *, 4> *Extensions` is modelled as an optional
list of extension-declaration identities. -/
structure CachedExtensions where
  Extensions : Option (List Nat)
  Generation : Nat
deriving DecidableEq

/-- The default constructor `CachedExtensions() : Extensions(nullptr),
Generation(0) { }` (ImporterImpl.h:459-460). -/
def CachedExtensions.defaultInit : CachedExtensions :=
  { Extensions := none, Generation := 0 }

/-- The move constructor (ImporterImpl.h:465-470): the first component is the
newly constructed value, the second is what the moved-from entry is left as
(`other.Extensions = nullptr; other.Generation = 0;`). -/
def CachedExtensions.moveFrom (other : CachedExtensions) :
    CachedExtensions × CachedExtensions :=
  ({ Extensions := other.Extensions, Generation := other.Generation },
   { Extensions := none, Generation := 0 })

/-! ## Session state -/

/-- The mutable session state of `ClangImporter::Implementation` observed by
the cache/coordination logic.  `NextHostDeclId` is the model's allocator for
fresh Swift declaration identities (in the source, freshness is provided by
AST node allocation in `createDeclWithClangNode`). -/
structure ImplState where
  /-- ImporterImpl.h:455 — `unsigned Generation = 1`; 32-bit, kept below
  `2 ^ 32` by the wrapping increment in `bumpGeneration`. -/
  Generation : Nat
  /-- ImporterImpl.h:303 — mapping of already-imported declarations. -/
  ImportedDecls : List (ForeignDecl × HostDecl)
  /-- ImporterImpl.h:549 — mapping from imported declarations to their
  "alternate" declarations (`ValueDecl *` identities as `Nat`). -/
  AlternateDecls : List (HostDecl × Nat)
  /-- ImporterImpl.h:416 — extra level of caching of visible decls. -/
  CachedVisibleDecls : List Nat
  /-- ImporterImpl.h:421 — `CurrentCacheState = CacheState::Invalid`. -/
  CurrentCacheState : CacheState
  /-- ImporterImpl.h:498 — cache of the class extensions, keyed by class
  declaration identity. -/
  ClassExtensions : List (Nat × CachedExtensions)
  /-- ImporterImpl.h:613-614 — delayed conformance IDs to conformance sets
  (`ProtocolConformance *` identities as `Nat`). -/
  DelayedConformances : List (Nat × List Nat)
  /-- ImporterImpl.h:617 — `unsigned NextDelayedConformanceID = 0`; 32-bit,
  kept below `2 ^ 32` by the wrapping post-increment in
  `allocateDelayedConformance`. -/
  NextDelayedConformanceID : Nat
  /-- Model allocator for fresh `HostDecl` identities. -/
  NextHostDeclId : Nat
deriving DecidableEq

/-- The initial session state: in-class initializers give `Generation = 1`
(ImporterImpl.h:455) and `NextDelayedConformanceID = 0` (ImporterImpl.h:617);
all maps start empty and the visible-decl cache starts `Invalid`
(ImporterImpl.h:421). -/
def initState : ImplState :=
  { Generation := 1
    ImportedDecls := []
    AlternateDecls := []
    CachedVisibleDecls := []
    CurrentCacheState := CacheState.Invalid
    ClassExtensions := []
    DelayedConformances := []
    NextDelayedConformanceID := 0
    NextHostDeclId := 0 }

/-- ImporterImpl.h:490-495.  `++Generation` on a 32-bit `unsigned` wraps
modulo `2 ^ 32`.  `SwiftContext.bumpGeneration()` mutates the external AST
context only, not the session state modelled here. -/
def bumpGeneration (s : ImplState) : ImplState :=
  { s with
    Generation := (s.Generation + 1) % 2 ^ 32
    CachedVisibleDecls := []
    CurrentCacheState := CacheState.Invalid }

/-! ## Alternate declarations -/

/-- ImporterImpl.h:553-557.  `AlternateDecls.find(decl)` followed by a
comparison against `end()`: a missing entry yields `nullptr` (`none`), a
present entry yields its mapped value.  The member mutates nothing, so the
state is returned unchanged. -/
def getAlternateDecl (s : ImplState) (decl : HostDecl) : Option Nat × ImplState :=
  (findEntry s.AlternateDecls decl, s)

/-! ## Delayed conformances -/

/-- Outcome of `takeDelayedConformance`.  The source contains no assertion
on the missing-entry path, so the only outcomes the translated code can
produce are `ok` and (when `find` returns `end()` and `conformances->second`
is dereferenced anyway) `undefinedBehavior`; `assertionFailed` is the
outcome a detecting check would produce, and no code path produces it. -/
inductive TakeOutcome
  | ok (conformances : List Nat)
  | assertionFailed
  | undefinedBehavior
deriving DecidableEq

/-- ImporterImpl.h:1226-1231.  `unsigned id = NextDelayedConformanceID++;
DelayedConformances[id] = std::move(conformances); return id;` — the
post-increment of the 32-bit `unsigned` counter wraps modulo `2 ^ 32`. -/
def allocateDelayedConformance (s : ImplState) (conformances : List Nat) :
    Nat × ImplState :=
  (s.NextDelayedConformanceID,
   { s with
     DelayedConformances :=
       insertEntry s.DelayedConformances s.NextDelayedConformanceID conformances
     NextDelayedConformanceID := (s.NextDelayedConformanceID + 1) % 2 ^ 32 })

/-- ImporterImpl.h:1234-1240.  `auto conformances =
DelayedConformances.find(id);` then, with no check of the result,
`std::move(conformances->second)` and `DelayedConformances.erase(conformances)`.
When the id is present this returns the stored list and erases the entry;
when it is absent the code dereferences the end iterator, which is
undefined behavior, modelled as the `undefinedBehavior` outcome with the
state left unconstrained (returned unchanged). -/
def takeDelayedConformance (s : ImplState) (id : Nat) : TakeOutcome × ImplState :=
  match findEntry s.DelayedConformances id with
  | some conformances =>
      (TakeOutcome.ok conformances,
       { s with DelayedConformances := eraseEntry s.DelayedConformances id })
  | none => (TakeOutcome.undefinedBehavior, s)

/-! ## Declaration import cache -/

/-- Whether a foreign declaration can be represented in Swift at all
(§7 taxonomy (1): unrepresentable constructs import as null). -/
def ForeignDecl.importable : ForeignDecl → Bool
  | .base _ representable => representable
  | .typedefOf _ target => target.importable

/-- Modelled from the spec: superfluous-typedef unwrapping
(§4.5 `DeclImportCache`) — transparent import of a chain of superfluous
typedefs resolves, transitively, to the underlying declaration; the source
records such typedefs in `SuperfluousTypedefs` (ImporterImpl.h:390-392) and
`importDeclAndCacheImpl`'s body is outside this header. -/
def resolveSuperfluousTypedefs : ForeignDecl → ForeignDecl
  | .base id representable => .base id representable
  | .typedefOf true target => resolveSuperfluousTypedefs target
  | .typedefOf false target => .typedefOf false target

/-- ImporterImpl.h:905-907 (doc comment): "If we already imported a given
decl, return the corresponding Swift decl.  Otherwise, return nullptr."
Modelled from the spec and that doc comment as a lookup in `ImportedDecls`
(the body is outside this header). -/
def importDeclCached (s : ImplState) (clangDecl : ForeignDecl) : Option HostDecl :=
  findEntry s.ImportedDecls clangDecl

/-- Modelled from the spec: the body of `importDeclAndCacheImpl`
(declared at ImporterImpl.h:913-914) is outside this header; §4.5 gives
"check cache → on miss, create a placeholder … → run NameImporter +
TypeImporter → register the result in the identity map → … → return",
with superfluous typedefs resolved to the underlying declaration when
requested transparently, and unrepresentable declarations importing as
null (§7).  Fresh host declarations take the next allocator identity. -/
def importDeclAndCacheImpl (s : ImplState) (clangDecl : ForeignDecl)
    (superfluousTypedefsAreTransparent : Bool) : Option HostDecl × ImplState :=
  let key :=
    if superfluousTypedefsAreTransparent then resolveSuperfluousTypedefs clangDecl
    else clangDecl
  match importDeclCached s key with
  | some known => (some known, s)
  | none =>
      if key.importable then
        let produced : HostDecl := { id := s.NextHostDeclId }
        (some produced,
         { s with
           ImportedDecls := insertEntry s.ImportedDecls key produced
           NextHostDeclId := s.NextHostDeclId + 1 })
      else (none, s)

/-- ImporterImpl.h:922-925: `importDecl` delegates to
`importDeclAndCacheImpl` with `SuperfluousTypedefsAreTransparent=true`. -/
def importDecl (s : ImplState) (clangDecl : ForeignDecl) :
    Option HostDecl × ImplState :=
  importDeclAndCacheImpl s clangDecl true

/-- ImporterImpl.h:933-936: `importDeclReal` delegates to
`importDeclAndCacheImpl` with `SuperfluousTypedefsAreTransparent=false`. -/
def importDeclReal (s : ImplState) (clangDecl : ForeignDecl) :
    Option HostDecl × ImplState :=
  importDeclAndCacheImpl s clangDecl false

/-! ## Session operations and reachability -/

/-- One observable operation on the session state modelled here. -/
inductive SessionOp
  | bumpGen
  | importD (clangDecl : ForeignDecl) (transparent : Bool)
  | getAlt (decl : HostDecl)
  | allocDC (conformances : List Nat)
  | takeDC (id : Nat)

/-- Apply one session operation to the state. -/
def applyOp (s : ImplState) : SessionOp → ImplState
  | .bumpGen => bumpGeneration s
  | .importD clangDecl transparent => (importDeclAndCacheImpl s clangDecl transparent).2
  | .getAlt decl => (getAlternateDecl s decl).2
  | .allocDC conformances => (allocateDelayedConformance s conformances).2
  | .takeDC id => (takeDelayedConformance s id).2

/-- Run a list of session operations from a state. -/
def runOps (s : ImplState) : List SessionOp → ImplState
  | [] => s
  | op :: rest => runOps (applyOp s op) rest

/-- A state is reachable when some operation sequence produces it from the
initial session state. -/
def Reachable (s : ImplState) : Prop :=
  ∃ ops : List SessionOp, runOps initState ops = s

/-- The ticket ids returned by the `allocateDelayedConformance` calls of an
operation sequence, in order. -/
def allocatedIds (s : ImplState) : List SessionOp → List Nat
  | [] => []
  | op :: rest =>
      match op with
      | .allocDC conformances =>
          (allocateDelayedConformance s conformances).1 ::
            allocatedIds (applyOp s op) rest
      | _ => allocatedIds (applyOp s op) rest

/-- The number of generation bumps in an operation sequence. -/
def countBumps : List SessionOp → Nat
  | [] => 0
  | SessionOp.bumpGen :: rest => countBumps rest + 1
  | _ :: rest => countBumps rest

/-- The number of delayed-conformance ticket allocations in an operation
sequence. -/
def countAllocs : List SessionOp → Nat
  | [] => 0
  | SessionOp.allocDC _ :: rest => countAllocs rest + 1
  | _ :: rest => countAllocs rest

/-! ## Selector bridge -/

/-- An Objective-C selector (`clang::Selector` / `swift::ObjCSelector`):
either a nullary selector consisting of a single identifier piece with no
colon, or a keyword selector with one piece per argument. -/
inductive Selector
  | nullary (piece : String)
  | keyword (firstPiece : String) (restPieces : List String)
deriving DecidableEq

/-- A structured Swift call name (`swift::DeclName`): a base name, and
either no argument list (a simple name) or an ordered list of argument
labels. -/
structure StructuredName where
  base : String
  args : Option (List String)
deriving DecidableEq

/-- Modelled from the spec: the body of `importSelector`
(declared at ImporterImpl.h:864) is outside this header; §4.1 gives
"splits a foreign multi-piece call name into a base name (first piece) and
argument labels (subsequent pieces, with the foreign convention that a
unary selector has zero labels)" — a nullary selector becomes a simple
name, a keyword selector becomes a call name whose base is the first piece
and whose labels are the remaining pieces. -/
def importSelector : Selector → StructuredName
  | .nullary piece => { base := piece, args := none }
  | .keyword firstPiece restPieces => { base := firstPiece, args := some restPieces }

/-- Modelled from the spec: the body of `exportSelector`
(declared at ImporterImpl.h:867) is outside this header; §4.1 gives the
inverse mapping, where a name with no argument labels produces a valid
zero-argument selector piece whether or not `allowSimpleName` holds. -/
def exportSelector (name : StructuredName) (allowSimpleName : Bool) : Selector :=
  match name.args with
  | none =>
      if allowSimpleName then .nullary name.base else .nullary name.base
  | some labels => .keyword name.base labels

/-! ## Enum classification -/

/-- ImporterImpl.h:231-245 — how a C enumeration type will be imported
into Swift. -/
inductive EnumKind
  | Enum
  | Options
  | Unknown
  | Constants
deriving DecidableEq

/-- Whether a value is an exact power of two (a single bit flag). -/
def isPowerOfTwo (n : Nat) : Bool :=
  n ≠ 0 && n &&& (n - 1) == 0

/-- The union of all single-bit-flag constant values of an enum. -/
def flagMask (values : List Nat) : Nat :=
  values.foldr (fun v acc => if isPowerOfTwo v then v ||| acc else acc) 0

/-- Whether the constant values look like bit flags: at least one constant
is a power of two, and every constant is zero or a combination of the
power-of-two constants present. -/
def valuesLookLikeOptions (values : List Nat) : Bool :=
  values.any (fun v => isPowerOfTwo v) &&
    values.all (fun v => v ||| flagMask values == flagMask values)

/-- A C enumeration declaration as the classification logic observes it:
the explicit bit-flag attribute/macro, the "Options"-like naming
convention on the type name, the explicit closed-enumeration annotation,
and the constant values. -/
structure CEnumDecl where
  hasFlagEnumAttr : Bool
  nameSuggestsOptions : Bool
  hasClosedAttr : Bool
  constantValues : List Nat
deriving DecidableEq

/-- Modelled from the spec: the body of `classifyEnum`
(declared at ImporterImpl.h:892-893) is outside this header; §4.3 gives
the decision signals — an explicit bit-flag macro/attribute (→ Options), a
recognized naming convention or all-power-of-two-or-combination constant
values (→ Options), an explicit closed-enumeration annotation (→ Enum,
the spec's CasesEnum), otherwise the conservative default (→ Constants,
the spec's RawConstants).  The closed-enumeration annotation is tested
before the constant-value heuristic, as forced by the spec's own test
vector (§8: constants {0, 1, 2} with a "closed" annotation classify as
CasesEnum). -/
def classifyEnum (decl : CEnumDecl) : EnumKind :=
  if decl.hasFlagEnumAttr then EnumKind.Options
  else if decl.hasClosedAttr then EnumKind.Enum
  else if decl.nameSuggestsOptions || valuesLookLikeOptions decl.constantValues then
    EnumKind.Options
  else EnumKind.Constants

/-! ## Imported names -/

/-- ImporterImpl.h:814 uses `swift::CtorInitializerKind`; only the values
the header mentions are needed here. -/
inductive CtorInitializerKind
  | Designated
  | Convenience
  | ConvenienceFactory
  | Factory
deriving DecidableEq

/-- ImporterImpl.h:780-790 — information about imported error parameters.
`ForeignErrorConvention::Kind` and `IsOwned_t` are external enumerations,
modelled as a numeric tag and a flag. -/
structure ImportedErrorInfo where
  Kind : Nat
  IsOwned : Bool
  ParamIndex : Nat
  ReplaceParamWithVoid : Bool
deriving DecidableEq

/-- ImporterImpl.h:793-826 — a name imported from Clang.  `DeclName` values
are modelled as `Option StructuredName`, where `none` is the empty
(default-constructed) `DeclName`, whose boolean conversion is false.  The
field initializers match the in-class defaults of the source struct. -/
structure ImportedName where
  Imported : Option StructuredName := none
  Alias : Option StructuredName := none
  HasCustomName : Bool := false
  DroppedVariadic : Bool := false
  IsSubscriptAccessor : Bool := false
  InitKind : CtorInitializerKind := CtorInitializerKind.Designated
  ErrorInfo : Option ImportedErrorInfo := none
deriving DecidableEq

/-- ImporterImpl.h:825 — `explicit operator bool() const { return
static_cast<bool>(Imported); }`: true exactly when the imported `DeclName`
is non-empty. -/
def ImportedName.toBool (name : ImportedName) : Bool :=
  name.Imported.isSome

/-- A Clang named declaration as the name-import logic modelled here
observes it: its selector (or single identifier as a nullary selector),
an optional explicit rename override from external metadata, and whether
an unrecoverable blocking condition (e.g. a name collision) applies. -/
structure ClangNamedDecl where
  selector : Selector
  overrideName : Option StructuredName
  blocked : Bool
deriving DecidableEq

/-- Modelled from the spec: the body of `importFullName`
(declared at ImporterImpl.h:848-851) is outside this header; §4.2 gives
the priority order — an explicit rename override is used verbatim and
marked `HasCustomName`, otherwise the name derives from the selector via
the selector bridge — and the failure mode: the function never throws
(it is a total function here) and on any blocking condition returns a
default `ImportedName` whose boolean conversion is false. -/
def importFullName (decl : ClangNamedDecl) : ImportedName :=
  if decl.blocked then {}
  else
    match decl.overrideName with
    | some name => { Imported := some name, HasCustomName := true }
    | none => { Imported := some (importSelector decl.selector) }

/-! ## Association-list lemmas -/

@[simp]
theorem findEntry_nil {α β : Type} [DecidableEq α] (a : α) :
    findEntry ([] : List (α × β)) a = none := rfl

theorem findEntry_cons {α β : Type} [DecidableEq α] (e : α × β) (l : List (α × β)) (a : α) :
    findEntry (e :: l) a = if e.1 = a then some e.2 else findEntry l a := rfl

@[simp]
theorem findEntry_eraseEntry_self {α β : Type} [DecidableEq α]
    (l : List (α × β)) (a : α) : findEntry (eraseEntry l a) a = none := by
  induction l with
  | nil => rfl
  | cons e rest ih =>
    by_cases h : e.1 = a
    · simpa [eraseEntry, h] using ih
    · simp [eraseEntry, h, findEntry_cons, ih]

theorem findEntry_eraseEntry_ne {α β : Type} [DecidableEq α]
    (l : List (α × β)) (a a' : α) (h : a ≠ a') :
    findEntry (eraseEntry l a) a' = findEntry l a' := by
  induction l with
  | nil => rfl
  | cons e rest ih =>
    by_cases he : e.1 = a
    · have : e.1 ≠ a' := by
        intro hc
        exact h (he ▸ hc ▸ rfl)
      simp [eraseEntry, he, findEntry_cons, this, h, ih]
    · simp [eraseEntry, he, findEntry_cons, ih]

@[simp]
theorem findEntry_insertEntry_self {α β : Type} [DecidableEq α]
    (l : List (α × β)) (a : α) (b : β) :
    findEntry (insertEntry l a b) a = some b := by
  simp [insertEntry, findEntry_cons]

theorem findEntry_eq_none_iff_not_mem {α β : Type} [DecidableEq α]
    (l : List (α × β)) (a : α) :
    findEntry l a = none ↔ ∀ b : β, (a, b) ∉ l := by
  induction l with
  | nil => simp
  | cons e rest ih =>
    by_cases h : e.1 = a
    · constructor
      · intro hc
        simp [findEntry_cons, h] at hc
      · intro hall
        exfalso
        exact hall e.2 (by simp [← h])
    · simp only [findEntry_cons, h, if_false, ih]
      constructor
      · intro hall b hmem
        rcases List.mem_cons.1 hmem with heq | hmem'
        · exact h (congrArg Prod.fst heq.symm)
        · exact hall b hmem'
      · intro hall b hmem
        exact hall b (List.mem_cons_of_mem _ hmem)

theorem findEntry_of_mem_of_nodup {α β : Type} [DecidableEq α]
    (l : List (α × β)) (a : α) (b : β)
    (hmem : (a, b) ∈ l) (hnd : (l.map Prod.fst).Nodup) :
    findEntry l a = some b := by
  induction l with
  | nil => cases hmem
  | cons e rest ih =>
    rcases List.mem_cons.1 hmem with heq | hmem'
    · subst heq
      simp [findEntry_cons]
    · have hnd' : (rest.map Prod.fst).Nodup := (List.nodup_cons.1 hnd).2
      have hne : e.1 ≠ a := by
        intro hc
        have : e.1 ∈ rest.map Prod.fst :=
          hc ▸ List.mem_map.2 ⟨(a, b), hmem', rfl⟩
        exact (List.nodup_cons.1 hnd).1 this
      simp [findEntry_cons, hne, ih hmem' hnd']

/-! ## Session-evolution lemmas -/
theorem generation_applyOp_nonbump (s : ImplState) (op : SessionOp)
    (h : op ≠ SessionOp.bumpGen) : (applyOp s op).Generation = s.Generation := by
  cases op with
  | bumpGen => exact absurd rfl h
  | importD clangDecl transparent =>
    simp only [applyOp, importDeclAndCacheImpl]
    cases hfind : importDeclCached s
        (if transparent then resolveSuperfluousTypedefs clangDecl else clangDecl) with
    | some known => simp [hfind]
    | none =>
      by_cases hi :
          (if transparent then resolveSuperfluousTypedefs clangDecl
           else clangDecl).importable
      · simp [hfind, hi]
      · simp [hfind, hi]
  | getAlt decl => simp [applyOp, getAlternateDecl]
  | allocDC conformances => simp [applyOp, allocateDelayedConformance]
  | takeDC id =>
    simp only [applyOp, takeDelayedConformance]
    cases hfind : findEntry s.DelayedConformances id with
    | some conformances => simp [hfind]
    | none => simp [hfind]

theorem nextDC_applyOp_nonalloc (s : ImplState) (op : SessionOp)
    (h : ∀ L : List Nat, op ≠ SessionOp.allocDC L) :
    (applyOp s op).NextDelayedConformanceID = s.NextDelayedConformanceID := by
  cases op with
  | allocDC conformances => exact absurd rfl (h conformances)
  | bumpGen => simp [applyOp, bumpGeneration]
  | importD clangDecl transparent =>
    simp only [applyOp, importDeclAndCacheImpl]
    cases hfind : importDeclCached s
        (if transparent then resolveSuperfluousTypedefs clangDecl else clangDecl) with
    | some known => simp [hfind]
    | none =>
      by_cases hi :
          (if transparent then resolveSuperfluousTypedefs clangDecl
           else clangDecl).importable
      · simp [hfind, hi]
      · simp [hfind, hi]
  | getAlt decl => simp [applyOp, getAlternateDecl]
  | takeDC id =>
    simp only [applyOp, takeDelayedConformance]
    cases hfind : findEntry s.DelayedConformances id with
    | some conformances => simp [hfind]
    | none => simp [hfind]

theorem runOps_generation (ops : List SessionOp) (s : ImplState)
    (hs : s.Generation < 2 ^ 32) :
    (runOps s ops).Generation = (s.Generation + countBumps ops) % 2 ^ 32 := by
  induction ops generalizing s with
  | nil =>
    show s.Generation = (s.Generation + 0) % 2 ^ 32
    rw [Nat.add_zero, Nat.mod_eq_of_lt hs]
  | cons op rest ih =>
    cases op with
    | bumpGen =>
      have hlt : (applyOp s SessionOp.bumpGen).Generation < 2 ^ 32 :=
        Nat.mod_lt _ (by norm_num)
      have htail := ih (applyOp s SessionOp.bumpGen) hlt
      show (runOps (applyOp s SessionOp.bumpGen) rest).Generation
          = (s.Generation + (countBumps rest + 1)) % 2 ^ 32
      rw [htail]
      show ((s.Generation + 1) % 2 ^ 32 + countBumps rest) % 2 ^ 32
          = (s.Generation + (countBumps rest + 1)) % 2 ^ 32
      rw [Nat.mod_add_mod]
      congr 1
      omega
    | importD clangDecl transparent =>
      have heq := generation_applyOp_nonbump s
        (SessionOp.importD clangDecl transparent) (fun hc => SessionOp.noConfusion hc)
      have htail := ih (applyOp s (SessionOp.importD clangDecl transparent))
        (by rw [heq]; exact hs)
      show (runOps (applyOp s (SessionOp.importD clangDecl transparent)) rest).Generation
          = (s.Generation + countBumps rest) % 2 ^ 32
      rw [htail, heq]
    | getAlt decl =>
      have heq := generation_applyOp_nonbump s (SessionOp.getAlt decl)
        (fun hc => SessionOp.noConfusion hc)
      have htail := ih (applyOp s (SessionOp.getAlt decl)) (by rw [heq]; exact hs)
      show (runOps (applyOp s (SessionOp.getAlt decl)) rest).Generation
          = (s.Generation + countBumps rest) % 2 ^ 32
      rw [htail, heq]
    | allocDC conformances =>
      have heq := generation_applyOp_nonbump s (SessionOp.allocDC conformances)
        (fun hc => SessionOp.noConfusion hc)
      have htail := ih (applyOp s (SessionOp.allocDC conformances))
        (by rw [heq]; exact hs)
      show (runOps (applyOp s (SessionOp.allocDC conformances)) rest).Generation
          = (s.Generation + countBumps rest) % 2 ^ 32
      rw [htail, heq]
    | takeDC id =>
      have heq := generation_applyOp_nonbump s (SessionOp.takeDC id)
        (fun hc => SessionOp.noConfusion hc)
      have htail := ih (applyOp s (SessionOp.takeDC id)) (by rw [heq]; exact hs)
      show (runOps (applyOp s (SessionOp.takeDC id)) rest).Generation
          = (s.Generation + countBumps rest) % 2 ^ 32
      rw [htail, heq]

theorem runOps_replicate_bump (g n : Nat) (hg : g < 2 ^ 32) :
    runOps { initState with Generation := g } (List.replicate n SessionOp.bumpGen)
      = { initState with Generation := (g + n) % 2 ^ 32 } := by
  induction n generalizing g with
  | zero =>
    show ({ initState with Generation := g } : ImplState)
        = { initState with Generation := (g + 0) % 2 ^ 32 }
    rw [Nat.add_zero, Nat.mod_eq_of_lt hg]
  | succ n ih =>
    rw [List.replicate_succ]
    show runOps (bumpGeneration { initState with Generation := g })
        (List.replicate n SessionOp.bumpGen)
      = { initState with Generation := (g + (n + 1)) % 2 ^ 32 }
    have hb : bumpGeneration { initState with Generation := g }
        = { initState with Generation := (g + 1) % 2 ^ 32 } := rfl
    rw [hb, ih ((g + 1) % 2 ^ 32) (Nat.mod_lt _ (by norm_num))]
    have harith : ((g + 1) % 2 ^ 32 + n) % 2 ^ 32 = (g + (n + 1)) % 2 ^ 32 := by
      rw [Nat.mod_add_mod]
      congr 1
      omega
    rw [harith]

theorem allocatedIds_nil_of_countAllocs_zero (ops : List SessionOp) (s : ImplState)
    (h : countAllocs ops = 0) : allocatedIds s ops = [] := by
  induction ops generalizing s with
  | nil => rfl
  | cons op rest ih =>
    cases op with
    | allocDC conformances => exact absurd h (by simp [countAllocs])
    | bumpGen => exact ih _ h
    | importD clangDecl transparent => exact ih _ h
    | getAlt decl => exact ih _ h
    | takeDC id => exact ih _ h

theorem allocatedIds_lb_of_bounded (ops : List SessionOp) (s : ImplState)
    (hs : s.NextDelayedConformanceID + countAllocs ops ≤ 2 ^ 32) :
    ∀ i ∈ allocatedIds s ops, s.NextDelayedConformanceID ≤ i := by
  induction ops generalizing s with
  | nil => intro i hi; cases hi
  | cons op rest ih =>
    intro i hi
    cases op with
    | allocDC conformances =>
      rcases List.mem_cons.1 hi with heq | hmem
      · subst heq
        exact Nat.le_refl _
      · by_cases hW : s.NextDelayedConformanceID + 1 < 2 ^ 32
        · have hnext : (applyOp s (SessionOp.allocDC conformances)).NextDelayedConformanceID
              = s.NextDelayedConformanceID + 1 := by
            show (s.NextDelayedConformanceID + 1) % 2 ^ 32
                = s.NextDelayedConformanceID + 1
            exact Nat.mod_eq_of_lt hW
          have hcount : countAllocs (SessionOp.allocDC conformances :: rest)
              = countAllocs rest + 1 := rfl
          have hs2 := hs
          rw [hcount] at hs2
          have hs3 : (applyOp s (SessionOp.allocDC conformances)).NextDelayedConformanceID
              + countAllocs rest ≤ 2 ^ 32 := by
            rw [hnext]
            omega
          have hb := ih (applyOp s (SessionOp.allocDC conformances)) hs3 i hmem
          rw [hnext] at hb
          omega
        · have hcount : countAllocs (SessionOp.allocDC conformances :: rest)
              = countAllocs rest + 1 := rfl
          have hs2 := hs
          rw [hcount] at hs2
          have hc : countAllocs rest = 0 := by omega
          have hnil := allocatedIds_nil_of_countAllocs_zero rest
            (applyOp s (SessionOp.allocDC conformances)) hc
          rw [hnil] at hmem
          cases hmem
    | bumpGen =>
      have hnext := nextDC_applyOp_nonalloc s SessionOp.bumpGen
        (fun L hc => SessionOp.noConfusion hc)
      have hs3 : (applyOp s SessionOp.bumpGen).NextDelayedConformanceID
          + countAllocs rest ≤ 2 ^ 32 := by
        rw [hnext]
        exact hs
      have hb := ih (applyOp s SessionOp.bumpGen) hs3 i hi
      rw [hnext] at hb
      exact hb
    | importD clangDecl transparent =>
      have hnext := nextDC_applyOp_nonalloc s (SessionOp.importD clangDecl transparent)
        (fun L hc => SessionOp.noConfusion hc)
      have hs3 : (applyOp s (SessionOp.importD clangDecl transparent)).NextDelayedConformanceID
          + countAllocs rest ≤ 2 ^ 32 := by
        rw [hnext]
        exact hs
      have hb := ih (applyOp s (SessionOp.importD clangDecl transparent)) hs3 i hi
      rw [hnext] at hb
      exact hb
    | getAlt decl =>
      have hnext := nextDC_applyOp_nonalloc s (SessionOp.getAlt decl)
        (fun L hc => SessionOp.noConfusion hc)
      have hs3 : (applyOp s (SessionOp.getAlt decl)).NextDelayedConformanceID
          + countAllocs rest ≤ 2 ^ 32 := by
        rw [hnext]
        exact hs
      have hb := ih (applyOp s (SessionOp.getAlt decl)) hs3 i hi
      rw [hnext] at hb
      exact hb
    | takeDC id =>
      have hnext := nextDC_applyOp_nonalloc s (SessionOp.takeDC id)
        (fun L hc => SessionOp.noConfusion hc)
      have hs3 : (applyOp s (SessionOp.takeDC id)).NextDelayedConformanceID
          + countAllocs rest ≤ 2 ^ 32 := by
        rw [hnext]
        exact hs
      have hb := ih (applyOp s (SessionOp.takeDC id)) hs3 i hi
      rw [hnext] at hb
      exact hb

theorem allocatedIds_pairwise_of_bounded (ops : List SessionOp) (s : ImplState)
    (hs : s.NextDelayedConformanceID + countAllocs ops ≤ 2 ^ 32) :
    List.Pairwise (· < ·) (allocatedIds s ops) := by
  induction ops generalizing s with
  | nil => exact List.Pairwise.nil
  | cons op rest ih =>
    cases op with
    | allocDC conformances =>
      have hcount : countAllocs (SessionOp.allocDC conformances :: rest)
          = countAllocs rest + 1 := rfl
      have hs2 := hs
      rw [hcount] at hs2
      by_cases hW : s.NextDelayedConformanceID + 1 < 2 ^ 32
      · have hnext : (applyOp s (SessionOp.allocDC conformances)).NextDelayedConformanceID
            = s.NextDelayedConformanceID + 1 := by
          show (s.NextDelayedConformanceID + 1) % 2 ^ 32
              = s.NextDelayedConformanceID + 1
          exact Nat.mod_eq_of_lt hW
        have hs3 : (applyOp s (SessionOp.allocDC conformances)).NextDelayedConformanceID
            + countAllocs rest ≤ 2 ^ 32 := by
          rw [hnext]
          omega
        refine List.pairwise_cons.2 ⟨?_, ih _ hs3⟩
        intro i hi
        have hb := allocatedIds_lb_of_bounded rest
          (applyOp s (SessionOp.allocDC conformances)) hs3 i hi
        rw [hnext] at hb
        show s.NextDelayedConformanceID < i
        omega
      · have hc : countAllocs rest = 0 := by omega
        have hnil := allocatedIds_nil_of_countAllocs_zero rest
          (applyOp s (SessionOp.allocDC conformances)) hc
        show List.Pairwise (· < ·)
          ((allocateDelayedConformance s conformances).1 ::
            allocatedIds (applyOp s (SessionOp.allocDC conformances)) rest)
        rw [hnil]
        exact List.pairwise_singleton _ _
    | bumpGen =>
      have hnext := nextDC_applyOp_nonalloc s SessionOp.bumpGen
        (fun L hc => SessionOp.noConfusion hc)
      exact ih _ (by rw [hnext]; exact hs)
    | importD clangDecl transparent =>
      have hnext := nextDC_applyOp_nonalloc s (SessionOp.importD clangDecl transparent)
        (fun L hc => SessionOp.noConfusion hc)
      exact ih _ (by rw [hnext]; exact hs)
    | getAlt decl =>
      have hnext := nextDC_applyOp_nonalloc s (SessionOp.getAlt decl)
        (fun L hc => SessionOp.noConfusion hc)
      exact ih _ (by rw [hnext]; exact hs)
    | takeDC id =>
      have hnext := nextDC_applyOp_nonalloc s (SessionOp.takeDC id)
        (fun L hc => SessionOp.noConfusion hc)
      exact ih _ (by rw [hnext]; exact hs)

theorem mem_allocatedIds_replicate (conformances : List Nat) :
    ∀ (n k : Nat) (s : ImplState), k < n →
      s.NextDelayedConformanceID < 2 ^ 32 →
      (s.NextDelayedConformanceID + k) % 2 ^ 32
        ∈ allocatedIds s (List.replicate n (SessionOp.allocDC conformances)) := by
  intro n
  induction n with
  | zero => intro k s hk hs; exact absurd hk (Nat.not_lt_zero k)
  | succ n ih =>
    intro k s hk hs
    rw [List.replicate_succ]
    show (s.NextDelayedConformanceID + k) % 2 ^ 32
        ∈ (allocateDelayedConformance s conformances).1 ::
          allocatedIds (applyOp s (SessionOp.allocDC conformances))
            (List.replicate n (SessionOp.allocDC conformances))
    cases k with
    | zero =>
      have hz : (s.NextDelayedConformanceID + 0) % 2 ^ 32
          = s.NextDelayedConformanceID := by
        rw [Nat.add_zero, Nat.mod_eq_of_lt hs]
      rw [hz]
      exact List.mem_cons_self _ _
    | succ j =>
      apply List.mem_cons_of_mem
      have hs2 : (applyOp s (SessionOp.allocDC conformances)).NextDelayedConformanceID
          < 2 ^ 32 := Nat.mod_lt _ (by norm_num)
      have hmem := ih j (applyOp s (SessionOp.allocDC conformances))
        (Nat.lt_of_succ_lt_succ hk) hs2
      have heq : ((applyOp s (SessionOp.allocDC conformances)).NextDelayedConformanceID
          + j) % 2 ^ 32 = (s.NextDelayedConformanceID + (j + 1)) % 2 ^ 32 := by
        show ((s.NextDelayedConformanceID + 1) % 2 ^ 32 + j) % 2 ^ 32
            = (s.NextDelayedConformanceID + (j + 1)) % 2 ^ 32
        rw [Nat.mod_add_mod]
        congr 1
        omega
      rw [heq] at hmem
      exact hmem

theorem importDeclAndCacheImpl_spec (s : ImplState) (d K : ForeignDecl) (t : Bool)
    (hK : (if t then resolveSuperfluousTypedefs d else d) = K) :
    importDeclAndCacheImpl s d t =
      match findEntry s.ImportedDecls K with
      | some known => (some known, s)
      | none =>
          if K.importable then
            (some { id := s.NextHostDeclId },
             { s with
               ImportedDecls :=
                 insertEntry s.ImportedDecls K { id := s.NextHostDeclId }
               NextHostDeclId := s.NextHostDeclId + 1 })
          else (none, s) := by
  subst hK
  rfl

/-! ## Claim theorems -/

/-- C4 (amended): `bumpGeneration` increments the 32-bit `Generation`
counter modulo `2 ^ 32` — a strict increase whenever the counter is below
the wrap point `2 ^ 32 - 1` (and `Generation` is monotone under every
modelled session operation while below that point), wrapping to 0 at
`2 ^ 32 - 1` — clears the visible-declaration enumeration cache
(`CachedVisibleDecls` emptied and `CurrentCacheState` set to `Invalid`),
and leaves the identity map `ImportedDecls`, the alternate-declaration
map `AlternateDecls`, and every entry stored in them unchanged. -/
theorem bumpGeneration_frame_wrap (s : ImplState)
    (h : s.Generation < 2 ^ 32 - 1) :
    (bumpGeneration s).Generation = (s.Generation + 1) % 2 ^ 32 ∧
    s.Generation < (bumpGeneration s).Generation ∧
    (∀ (u : ImplState) (op : SessionOp), u.Generation < 2 ^ 32 - 1 →
        u.Generation ≤ (applyOp u op).Generation) ∧
    (bumpGeneration s).CachedVisibleDecls = [] ∧
    (bumpGeneration s).CurrentCacheState = CacheState.Invalid ∧
    (bumpGeneration s).ImportedDecls = s.ImportedDecls ∧
    (bumpGeneration s).AlternateDecls = s.AlternateDecls := by
  have hmono : ∀ (u : ImplState) (op : SessionOp), u.Generation < 2 ^ 32 - 1 →
      u.Generation ≤ (applyOp u op).Generation := by
    intro u op hu
    cases op with
    | bumpGen =>
      show u.Generation ≤ (u.Generation + 1) % 2 ^ 32
      rw [Nat.mod_eq_of_lt (lt_tsub_iff_right.mp hu)]
      exact Nat.le_succ _
    | importD clangDecl transparent =>
      exact le_of_eq (generation_applyOp_nonbump u
        (SessionOp.importD clangDecl transparent)
        (fun hc => SessionOp.noConfusion hc)).symm
    | getAlt decl =>
      exact le_of_eq (generation_applyOp_nonbump u (SessionOp.getAlt decl)
        (fun hc => SessionOp.noConfusion hc)).symm
    | allocDC conformances =>
      exact le_of_eq (generation_applyOp_nonbump u (SessionOp.allocDC conformances)
        (fun hc => SessionOp.noConfusion hc)).symm
    | takeDC id =>
      exact le_of_eq (generation_applyOp_nonbump u (SessionOp.takeDC id)
        (fun hc => SessionOp.noConfusion hc)).symm
  have hstrict : s.Generation < (bumpGeneration s).Generation := by
    show s.Generation < (s.Generation + 1) % 2 ^ 32
    rw [Nat.mod_eq_of_lt (lt_tsub_iff_right.mp h)]
    exact Nat.lt_succ_self _
  exact ⟨rfl, hstrict, hmono, rfl, rfl, rfl, rfl⟩

/-- C4 witness: the amended statement holds at the initial session state,
whose generation counter 1 is below the wrap point. -/
theorem bumpGeneration_frame_wrap_witness :
    initState.Generation < (bumpGeneration initState).Generation ∧
    (bumpGeneration initState).ImportedDecls = initState.ImportedDecls :=
  ⟨(bumpGeneration_frame_wrap initState (by decide)).2.1,
   (bumpGeneration_frame_wrap initState (by decide)).2.2.2.2.2.1⟩

/-- C4 counterexample: the claim as stated is false — in the reachable
session state whose 32-bit `Generation` counter has reached `2 ^ 32 - 1`
(after `2 ^ 32 - 2` generation bumps), one more `bumpGeneration` wraps
the counter to 0 instead of strictly incrementing it, so `Generation` is
not monotonically increasing over the whole session. -/
theorem bumpGeneration_wrap_counterexample :
    Reachable { initState with Generation := 2 ^ 32 - 1 } ∧
    (bumpGeneration { initState with Generation := 2 ^ 32 - 1 }).Generation = 0 ∧
    ¬ ({ initState with Generation := 2 ^ 32 - 1 } : ImplState).Generation
        < (bumpGeneration { initState with Generation := 2 ^ 32 - 1 }).Generation := by
  have hzero :
      (bumpGeneration { initState with Generation := 2 ^ 32 - 1 }).Generation = 0 := by
    show (2 ^ 32 - 1 + 1) % 2 ^ 32 = 0
    norm_num
  refine ⟨?_, hzero, ?_⟩
  · refine ⟨List.replicate (2 ^ 32 - 2) SessionOp.bumpGen, ?_⟩
    have hrun := runOps_replicate_bump 1 (2 ^ 32 - 2) (by norm_num)
    have h2 : (1 + (2 ^ 32 - 2)) % 2 ^ 32 = 2 ^ 32 - 1 := by norm_num
    rw [h2] at hrun
    exact hrun
  · rw [hzero]
    exact Nat.not_lt_zero _


theorem importDeclAndCacheImpl_hit (s : ImplState) (d K : ForeignDecl) (t : Bool)
    (h : HostDecl) (hK : (if t then resolveSuperfluousTypedefs d else d) = K)
    (hfind : findEntry s.ImportedDecls K = some h) :
    importDeclAndCacheImpl s d t = (some h, s) := by
  rw [importDeclAndCacheImpl_spec s d K t hK, hfind]

theorem importDeclAndCacheImpl_postcache (s : ImplState) (d K : ForeignDecl) (t : Bool)
    (hK : (if t then resolveSuperfluousTypedefs d else d) = K) :
    (∃ h, (importDeclAndCacheImpl s d t).1 = some h ∧
        findEntry (importDeclAndCacheImpl s d t).2.ImportedDecls K = some h) ∨
    (importDeclAndCacheImpl s d t = (none, s) ∧
        findEntry s.ImportedDecls K = none ∧ K.importable = false) := by
  rw [importDeclAndCacheImpl_spec s d K t hK]
  cases hfind : findEntry s.ImportedDecls K with
  | some known => exact Or.inl ⟨known, rfl, hfind⟩
  | none =>
    by_cases hi : K.importable
    · refine Or.inl ⟨{ id := s.NextHostDeclId }, ?_, ?_⟩
      · simp [hi]
      · simp [hi]
    · right
      simp only [hi, if_false]
      exact ⟨rfl, trivial, trivial⟩

/-- C1: two consecutive calls to the cached import entry point
(`importDeclAndCacheImpl` with either transparency flag, hence in
particular `importDecl`, which delegates to it with the flag set) return
the identical host declaration, and a third call made after an unrelated
`bumpGeneration` still returns that same identity, because
`bumpGeneration` leaves the identity map `ImportedDecls` untouched. -/
theorem importDecl_idempotent_across_bump (s : ImplState) (d : ForeignDecl) (t : Bool) :
    importDecl s d = importDeclAndCacheImpl s d true ∧
    (bumpGeneration (importDeclAndCacheImpl s d t).2).ImportedDecls
      = (importDeclAndCacheImpl s d t).2.ImportedDecls ∧
    (importDeclAndCacheImpl (importDeclAndCacheImpl s d t).2 d t).1
      = (importDeclAndCacheImpl s d t).1 ∧
    (importDeclAndCacheImpl
        (bumpGeneration
          (importDeclAndCacheImpl (importDeclAndCacheImpl s d t).2 d t).2) d t).1
      = (importDeclAndCacheImpl s d t).1 := by
  refine ⟨rfl, rfl, ?_⟩
  rcases importDeclAndCacheImpl_postcache s d _ t rfl with
    ⟨h, hr1, hfind1⟩ | ⟨heq, hfind, hi⟩
  · have h2 : importDeclAndCacheImpl (importDeclAndCacheImpl s d t).2 d t
        = (some h, (importDeclAndCacheImpl s d t).2) :=
      importDeclAndCacheImpl_hit _ d _ t h rfl hfind1
    have hfind2 : findEntry
        (bumpGeneration
          (importDeclAndCacheImpl (importDeclAndCacheImpl s d t).2 d t).2).ImportedDecls
        (if t then resolveSuperfluousTypedefs d else d) = some h := by
      rw [h2]
      exact hfind1
    have h3 : (importDeclAndCacheImpl
        (bumpGeneration
          (importDeclAndCacheImpl (importDeclAndCacheImpl s d t).2 d t).2) d t).1
        = some h := by
      rw [importDeclAndCacheImpl_hit _ d _ t h rfl hfind2]
    constructor
    · rw [h2, hr1]
    · rw [h3, hr1]
  · have h2 : importDeclAndCacheImpl (importDeclAndCacheImpl s d t).2 d t
        = (none, s) := by
      rw [heq]
      exact heq
    have hfind3 : findEntry
        (bumpGeneration
          (importDeclAndCacheImpl (importDeclAndCacheImpl s d t).2 d t).2).ImportedDecls
        (if t then resolveSuperfluousTypedefs d else d) = none := by
      rw [h2]
      exact hfind
    have h3 : (importDeclAndCacheImpl
        (bumpGeneration
          (importDeclAndCacheImpl (importDeclAndCacheImpl s d t).2 d t).2) d t).1
        = none := by
      rw [importDeclAndCacheImpl_spec _ d _ t rfl, hfind3]
      simp [hi]
    constructor
    · rw [h2, heq]
    · rw [h3, heq]

/-- C2 (amended): `allocateDelayedConformance` returns the current
`NextDelayedConformanceID` and advances the 32-bit counter modulo
`2 ^ 32`, so the returned ticket ids are strictly increasing, hence
pairwise distinct, along any session-operation sequence in which the
counter cannot wrap — at most `2 ^ 32` allocations in total (after
`2 ^ 32` allocations the counter wraps and ids repeat); each call stores
its conformance list under the returned id, and a subsequent
`takeDelayedConformance` with that id returns exactly that list and
removes the id's entry from `DelayedConformances`, so redeeming the same
id again finds no entry. -/
theorem allocateDelayedConformance_roundTrip_bounded :
    (∀ (s : ImplState) (ops : List SessionOp),
        s.NextDelayedConformanceID + countAllocs ops ≤ 2 ^ 32 →
        List.Pairwise (· < ·) (allocatedIds s ops)) ∧
    (∀ (s : ImplState) (conformances : List Nat),
        (allocateDelayedConformance s conformances).1
            = s.NextDelayedConformanceID ∧
        (allocateDelayedConformance s conformances).2.NextDelayedConformanceID
            = (s.NextDelayedConformanceID + 1) % 2 ^ 32 ∧
        findEntry (allocateDelayedConformance s conformances).2.DelayedConformances
            (allocateDelayedConformance s conformances).1 = some conformances ∧
        (takeDelayedConformance (allocateDelayedConformance s conformances).2
            (allocateDelayedConformance s conformances).1).1
            = TakeOutcome.ok conformances ∧
        findEntry
            (takeDelayedConformance (allocateDelayedConformance s conformances).2
              (allocateDelayedConformance s conformances).1).2.DelayedConformances
            (allocateDelayedConformance s conformances).1 = none) := by
  constructor
  · intro s ops hbound
    exact allocatedIds_pairwise_of_bounded ops s hbound
  · intro s conformances
    have hstore : findEntry
        (allocateDelayedConformance s conformances).2.DelayedConformances
        (allocateDelayedConformance s conformances).1 = some conformances :=
      findEntry_insertEntry_self _ _ _
    have htake : takeDelayedConformance (allocateDelayedConformance s conformances).2
        (allocateDelayedConformance s conformances).1
        = (TakeOutcome.ok conformances,
           { (allocateDelayedConformance s conformances).2 with
             DelayedConformances :=
               eraseEntry
                 (allocateDelayedConformance s conformances).2.DelayedConformances
                 (allocateDelayedConformance s conformances).1 }) := by
      rw [takeDelayedConformance, hstore]
    refine ⟨rfl, rfl, hstore, ?_, ?_⟩
    · rw [htake]
    · rw [htake]
      exact findEntry_eraseEntry_self _ _

/-- C2 witness: the distinctness hypothesis is discharged at a concrete
two-allocation sequence from the initial state, whose ticket ids are
strictly increasing, and the store hypothesis-free part is exercised by
the theorem directly. -/
theorem allocateDelayedConformance_roundTrip_bounded_witness :
    List.Pairwise (· < ·)
      (allocatedIds initState [SessionOp.allocDC [5], SessionOp.allocDC [7]]) :=
  allocateDelayedConformance_roundTrip_bounded.1 initState
    [SessionOp.allocDC [5], SessionOp.allocDC [7]] (by decide)

/-- C2 counterexample: the claim as stated is false — ticket ids are not
always distinct from every previously returned id: the session's first
allocation returns ticket id 0, and within the following `2 ^ 32`
allocations the wrapped 32-bit counter makes `allocateDelayedConformance`
return id 0 again. -/
theorem allocate_ticket_ids_wrap_counterexample :
    (allocateDelayedConformance initState []).1 = 0 ∧
    0 ∈ allocatedIds (allocateDelayedConformance initState []).2
          (List.replicate (2 ^ 32) (SessionOp.allocDC [])) := by
  refine ⟨rfl, ?_⟩
  have hs : (allocateDelayedConformance initState []).2.NextDelayedConformanceID
      < 2 ^ 32 := by decide
  have hmem := mem_allocatedIds_replicate [] (2 ^ 32) (2 ^ 32 - 1)
    (allocateDelayedConformance initState []).2 (by norm_num) hs
  have heq : ((allocateDelayedConformance initState []).2.NextDelayedConformanceID
      + (2 ^ 32 - 1)) % 2 ^ 32 = 0 := by
    show ((0 + 1) % 2 ^ 32 + (2 ^ 32 - 1)) % 2 ^ 32 = 0
    norm_num
  rw [heq] at hmem
  exact hmem

/-- C3 (amended): calling `takeDelayedConformance` with an id that has no
entry in `DelayedConformances` (never allocated, or already redeemed) is
not detected: the code contains no assertion or check and proceeds to
dereference the missing entry, which is undefined behavior; in particular
the call never produces a stored conformance list for such an id, and
redeeming a ticket a second time right after a successful redemption hits
this same undefined-behavior path. -/
theorem takeDelayedConformance_missing_undetected (s : ImplState) (id : Nat)
    (hmissing : findEntry s.DelayedConformances id = none) :
    takeDelayedConformance s id = (TakeOutcome.undefinedBehavior, s) ∧
    (∀ conformances : List Nat,
        (takeDelayedConformance s id).1 ≠ TakeOutcome.ok conformances) ∧
    (takeDelayedConformance s id).1 ≠ TakeOutcome.assertionFailed ∧
    (∀ conformances : List Nat,
        (takeDelayedConformance
            (takeDelayedConformance (allocateDelayedConformance s conformances).2
              (allocateDelayedConformance s conformances).1).2
            (allocateDelayedConformance s conformances).1).1
          = TakeOutcome.undefinedBehavior) := by
  have hub : takeDelayedConformance s id = (TakeOutcome.undefinedBehavior, s) := by
    rw [takeDelayedConformance, hmissing]
  refine ⟨hub, ?_, ?_, ?_⟩
  · intro conformances
    rw [hub]
    exact fun hc => TakeOutcome.noConfusion hc
  · rw [hub]
    exact fun hc => TakeOutcome.noConfusion hc
  · intro conformances
    have hstore : findEntry
        (allocateDelayedConformance s conformances).2.DelayedConformances
        (allocateDelayedConformance s conformances).1 = some conformances :=
      findEntry_insertEntry_self _ _ _
    have htake : takeDelayedConformance (allocateDelayedConformance s conformances).2
        (allocateDelayedConformance s conformances).1
        = (TakeOutcome.ok conformances,
           { (allocateDelayedConformance s conformances).2 with
             DelayedConformances :=
               eraseEntry
                 (allocateDelayedConformance s conformances).2.DelayedConformances
                 (allocateDelayedConformance s conformances).1 }) := by
      rw [takeDelayedConformance, hstore]
    rw [htake, takeDelayedConformance]
    rw [show findEntry
        (eraseEntry (allocateDelayedConformance s conformances).2.DelayedConformances
          (allocateDelayedConformance s conformances).1)
        (allocateDelayedConformance s conformances).1 = none from
      findEntry_eraseEntry_self _ _]

/-- C3 witness: the amended statement holds at the initial state with the
never-allocated ticket id 0. -/
theorem takeDelayedConformance_missing_undetected_witness :
    takeDelayedConformance initState 0 = (TakeOutcome.undefinedBehavior, initState) :=
  (takeDelayedConformance_missing_undetected initState 0 (by decide)).1

/-- C3 counterexample: the claim as stated is false — redeeming the
never-allocated ticket id 0 in the initial state is not rejected by a
detected (fatal/assertable) condition; the code reaches the
undefined-behavior path of dereferencing the missing entry. -/
theorem takeDelayedConformance_unknown_not_detected :
    (takeDelayedConformance initState 0).1 ≠ TakeOutcome.assertionFailed ∧
    (takeDelayedConformance initState 0).1 = TakeOutcome.undefinedBehavior := by
  decide

/-- C5 (amended): `importDecl` and `importDeclReal` both delegate to the
same cached path `importDeclAndCacheImpl`, differing only in whether
superfluous typedefs are treated transparently (`importDecl` passes true,
`importDeclReal` passes false); both entry points consult the identity
cache (a cached entry is returned as-is) and populate it on a successful
miss — neither is cache-bypassing. -/
theorem importDeclReal_cached_entry_point :
    (∀ (s : ImplState) (d : ForeignDecl),
        importDecl s d = importDeclAndCacheImpl s d true) ∧
    (∀ (s : ImplState) (d : ForeignDecl),
        importDeclReal s d = importDeclAndCacheImpl s d false) ∧
    (∀ (s : ImplState) (d : ForeignDecl) (known : HostDecl),
        importDeclCached s d = some known → importDeclReal s d = (some known, s)) ∧
    (∀ (s : ImplState) (d : ForeignDecl) (known : HostDecl),
        importDeclCached s (resolveSuperfluousTypedefs d) = some known →
          importDecl s d = (some known, s)) ∧
    (∀ (s : ImplState) (d : ForeignDecl),
        importDeclCached s d = none → d.importable = true →
          importDeclCached (importDeclReal s d).2 d
            = some { id := s.NextHostDeclId }) := by
  refine ⟨fun s d => rfl, fun s d => rfl, ?_, ?_, ?_⟩
  · intro s d known hfind
    exact importDeclAndCacheImpl_hit s d d false known rfl hfind
  · intro s d known hfind
    exact importDeclAndCacheImpl_hit s d (resolveSuperfluousTypedefs d) true known
      rfl hfind
  · intro s d hmiss hi
    show importDeclCached (importDeclAndCacheImpl s d false).2 d
        = some { id := s.NextHostDeclId }
    rw [importDeclAndCacheImpl_spec s d d false rfl]
    rw [show findEntry s.ImportedDecls d = none from hmiss]
    rw [if_pos hi]
    exact findEntry_insertEntry_self _ _ _

/-- C5 witness: the amended statement's conditional parts hold at concrete
inputs — a state caching declaration 0 to host declaration 42 is consulted
by `importDeclReal`, and an import from the initial state populates the
cache. -/
theorem importDeclReal_cached_entry_point_witness :
    importDeclReal
        { initState with
          ImportedDecls := [(ForeignDecl.base 0 true, { id := 42 })] }
        (ForeignDecl.base 0 true)
      = (some { id := 42 },
         { initState with
           ImportedDecls := [(ForeignDecl.base 0 true, { id := 42 })] }) ∧
    importDeclCached (importDeclReal initState (ForeignDecl.base 0 true)).2
        (ForeignDecl.base 0 true)
      = some { id := initState.NextHostDeclId } :=
  ⟨importDeclReal_cached_entry_point.2.2.1
      { initState with
        ImportedDecls := [(ForeignDecl.base 0 true, { id := 42 })] }
      (ForeignDecl.base 0 true) { id := 42 } (by decide),
   importDeclReal_cached_entry_point.2.2.2.2 initState (ForeignDecl.base 0 true)
      (by decide) (by decide)⟩

/-- C5 counterexample: the claim as stated is false — `importDeclReal` is
not cache-bypassing: in a state whose identity cache maps declaration 0 to
host declaration 42 (with the fresh-identity allocator at 100), it returns
the cached host declaration 42 rather than performing the import, and
calling it from the initial state populates the identity cache. -/
theorem importDeclReal_not_cache_bypassing :
    (importDeclReal
        { initState with
          ImportedDecls := [(ForeignDecl.base 0 true, { id := 42 })]
          NextHostDeclId := 100 }
        (ForeignDecl.base 0 true)).1 = some { id := 42 } ∧
    (importDeclReal initState (ForeignDecl.base 0 true)).2.ImportedDecls
      ≠ initState.ImportedDecls := by
  decide

/-- C6: the selector bridge round-trips — exporting the imported
structured name of any selector reproduces the selector, and importing
the exported selector of any structured name (with simple names allowed)
reproduces the structured name.  The bridge itself has no custom-override
lookup (overrides live in the name importer), so the round trip holds for
all inputs. -/
theorem selector_roundTrip :
    (∀ s : Selector, exportSelector (importSelector s) true = s) ∧
    (∀ n : StructuredName, importSelector (exportSelector n true) = n) := by
  constructor
  · intro s
    cases s <;> rfl
  · intro n
    obtain ⟨base, args⟩ := n
    cases args <;> rfl

/-- C7: with no positive classification signal (no bit-flag attribute, no
"Options"-like naming convention, no closed-enumeration annotation) and no
power-of-two constant values, `classifyEnum` yields the raw-constants
kind (`EnumKind.Constants`), never the cases-enum or option-set kinds;
additionally the constants {0x1, 0x2, 0x4} with no other signal classify
as an option set, and a closed-annotated enum with constants {0, 1, 2}
classifies as a cases enum. -/
theorem classifyEnum_conservative_default (d : CEnumDecl)
    (h1 : d.hasFlagEnumAttr = false)
    (h2 : d.nameSuggestsOptions = false)
    (h3 : d.hasClosedAttr = false)
    (h4 : ∀ v ∈ d.constantValues, isPowerOfTwo v = false) :
    classifyEnum d = EnumKind.Constants ∧
    classifyEnum d ≠ EnumKind.Enum ∧
    classifyEnum d ≠ EnumKind.Options ∧
    classifyEnum
        { hasFlagEnumAttr := false, nameSuggestsOptions := false,
          hasClosedAttr := false, constantValues := [1, 2, 4] }
      = EnumKind.Options ∧
    classifyEnum
        { hasFlagEnumAttr := false, nameSuggestsOptions := false,
          hasClosedAttr := true, constantValues := [0, 1, 2] }
      = EnumKind.Enum := by
  have hany : d.constantValues.any (fun v => isPowerOfTwo v) = false := by
    rw [List.any_eq_false]
    intro v hv
    simp [h4 v hv]
  have hheur : valuesLookLikeOptions d.constantValues = false := by
    rw [valuesLookLikeOptions, hany, Bool.false_and]
  have hmain : classifyEnum d = EnumKind.Constants := by
    rw [classifyEnum, h1, h2, h3, hheur]
    rfl
  refine ⟨hmain, ?_, ?_, by decide, by decide⟩
  · rw [hmain]
    exact fun hc => EnumKind.noConfusion hc
  · rw [hmain]
    exact fun hc => EnumKind.noConfusion hc

/-- C7 witness: the conservative default holds at a concrete enum with no
signal and the non-power-of-two values {3, 5, 6}. -/
theorem classifyEnum_conservative_default_witness :
    classifyEnum
        { hasFlagEnumAttr := false, nameSuggestsOptions := false,
          hasClosedAttr := false, constantValues := [3, 5, 6] }
      = EnumKind.Constants :=
  (classifyEnum_conservative_default
      { hasFlagEnumAttr := false, nameSuggestsOptions := false,
        hasClosedAttr := false, constantValues := [3, 5, 6] }
      rfl rfl rfl (by decide)).1

/-- C8: `importFullName` is a total function (it never throws), and on a
blocking condition it returns the default-constructed `ImportedName`;
a default-constructed `ImportedName` converts to false, and for every
`ImportedName` the boolean conversion is false exactly when the imported
`DeclName` is empty. -/
theorem importFullName_blocked_empty (d : ClangNamedDecl) (h : d.blocked = true) :
    importFullName d = {} ∧
    (importFullName d).toBool = false ∧
    ({} : ImportedName).toBool = false ∧
    (∀ n : ImportedName, n.toBool = false ↔ n.Imported = none) := by
  have hd : importFullName d = {} := by
    simp [importFullName, h]
  refine ⟨hd, ?_, rfl, ?_⟩
  · rw [hd]
    rfl
  · intro n
    cases hn : n.Imported <;> simp [ImportedName.toBool, hn]

/-- C8 witness: a concrete blocked declaration imports as the empty name,
whose boolean conversion is false. -/
theorem importFullName_blocked_empty_witness :
    importFullName
        { selector := Selector.nullary "init", overrideName := none, blocked := true }
      = {} ∧
    (importFullName
        { selector := Selector.nullary "init", overrideName := none, blocked := true }).toBool
      = false :=
  ⟨(importFullName_blocked_empty
      { selector := Selector.nullary "init", overrideName := none, blocked := true }
      rfl).1,
   (importFullName_blocked_empty
      { selector := Selector.nullary "init", overrideName := none, blocked := true }
      rfl).2.1⟩

/-- C9: `getAlternateDecl` is a pure query — it leaves the session state
(including `AlternateDecls`) unchanged, returns `none` exactly when no
alternate declaration is recorded for the queried declaration, and
returns the recorded alternate when one is (keys in the map being
unique, as `DenseMap` guarantees). -/
theorem getAlternateDecl_pure_query (s : ImplState) (decl : HostDecl)
    (hnd : (s.AlternateDecls.map Prod.fst).Nodup) :
    (getAlternateDecl s decl).2 = s ∧
    ((getAlternateDecl s decl).1 = none ↔
        ∀ v : Nat, (decl, v) ∉ s.AlternateDecls) ∧
    (∀ v : Nat, (decl, v) ∈ s.AlternateDecls →
        (getAlternateDecl s decl).1 = some v) := by
  refine ⟨rfl, ?_, ?_⟩
  · exact findEntry_eq_none_iff_not_mem s.AlternateDecls decl
  · intro v hv
    exact findEntry_of_mem_of_nodup s.AlternateDecls decl v hv hnd

/-- C9 witness: in a state recording host declaration 5's alternate as
value declaration 7, the query returns that alternate and leaves the
state unchanged. -/
theorem getAlternateDecl_pure_query_witness :
    (getAlternateDecl
        { initState with AlternateDecls := [({ id := 5 }, 7)] } { id := 5 }).1
      = some 7 ∧
    (getAlternateDecl
        { initState with AlternateDecls := [({ id := 5 }, 7)] } { id := 5 }).2
      = { initState with AlternateDecls := [({ id := 5 }, 7)] } :=
  ⟨(getAlternateDecl_pure_query
      { initState with AlternateDecls := [({ id := 5 }, 7)] } { id := 5 }
      (by decide)).2.2 7 (by decide),
   (getAlternateDecl_pure_query
      { initState with AlternateDecls := [({ id := 5 }, 7)] } { id := 5 }
      (by decide)).1⟩

/-- C10 (amended): a default-constructed or moved-from `CachedExtensions`
entry carries generation stamp 0 and a null extension list; the session's
32-bit `Generation` counter starts at 1, so along any operation sequence
performing fewer than `2 ^ 32 - 1` generation bumps the current
generation stays at least 1 and the validity condition "stamp equals
current generation" fails for such a fresh entry, which is therefore
rebuilt before first use (after exactly `2 ^ 32 - 1` bumps the counter
wraps to 0 and the condition would hold). -/
theorem cachedExtensions_fresh_stale_before_wrap (ops : List SessionOp)
    (h : countBumps ops < 2 ^ 32 - 1) :
    CachedExtensions.defaultInit.Generation = 0 ∧
    CachedExtensions.defaultInit.Extensions = none ∧
    (∀ c : CachedExtensions,
        (CachedExtensions.moveFrom c).2.Generation = 0 ∧
        (CachedExtensions.moveFrom c).2.Extensions = none) ∧
    1 ≤ (runOps initState ops).Generation ∧
    CachedExtensions.defaultInit.Generation ≠ (runOps initState ops).Generation ∧
    (∀ c : CachedExtensions,
        (CachedExtensions.moveFrom c).2.Generation
          ≠ (runOps initState ops).Generation) := by
  have hone : (1:Nat) + countBumps ops < 2 ^ 32 := lt_tsub_iff_left.mp h
  have hgen : (runOps initState ops).Generation = 1 + countBumps ops := by
    rw [runOps_generation ops initState (by decide)]
    have hbase : initState.Generation = 1 := rfl
    rw [hbase]
    exact Nat.mod_eq_of_lt hone
  have hne : CachedExtensions.defaultInit.Generation
      ≠ (runOps initState ops).Generation := by
    rw [hgen]
    show (0:Nat) ≠ 1 + countBumps ops
    omega
  refine ⟨rfl, rfl, fun c => ⟨rfl, rfl⟩, ?_, hne, fun c => hne⟩
  rw [hgen]
  omega

/-- C10 witness: the amended statement holds for the empty operation
sequence, i.e. at the initial session state. -/
theorem cachedExtensions_fresh_stale_before_wrap_witness :
    1 ≤ (runOps initState []).Generation ∧
    CachedExtensions.defaultInit.Generation ≠ (runOps initState []).Generation :=
  ⟨(cachedExtensions_fresh_stale_before_wrap [] (by decide)).2.2.2.1,
   (cachedExtensions_fresh_stale_before_wrap [] (by decide)).2.2.2.2.1⟩

/-- C10 counterexample: the claim as stated is false — after `2 ^ 32 - 1`
generation bumps the 32-bit `Generation` counter wraps to 0, a reachable
state in which a fresh `CachedExtensions` entry's stamp 0 equals the
current generation, so the validity condition does hold for a fresh
entry there. -/
theorem cachedExtensions_fresh_valid_after_wrap :
    Reachable { initState with Generation := 0 } ∧
    CachedExtensions.defaultInit.Generation
      = ({ initState with Generation := 0 } : ImplState).Generation := by
  constructor
  · refine ⟨List.replicate (2 ^ 32 - 1) SessionOp.bumpGen, ?_⟩
    have hrun := runOps_replicate_bump 1 (2 ^ 32 - 1) (by norm_num)
    have h2 : (1 + (2 ^ 32 - 1)) % 2 ^ 32 = 0 := by norm_num
    rw [h2] at hrun
    exact hrun
  · rfl
